import Mathlib

/-!
Shallow embedding of `main.go` from `newrelic-condition-collector`.

The program loads a two-field JSON configuration, performs one HTTP GET,
decodes the response body into an untyped JSON tree, extracts a list of
NRQL alert conditions (validating every field with dynamic type checks),
normalizes each threshold string to an integer-like decimal string, and
flattens the conditions into CSV rows (one per term, after a fixed header).

The network transport and raw byte-level I/O are outside the embedding;
we model the decoded JSON tree, the pure extraction/validation logic, the
pure row construction, and the filesystem as a name-indexed map of row
lists (so that `os.Create` truncation is visible).
-/

set_option autoImplicit false
set_option maxRecDepth 8192
set_option exponentiation.threshold 1200

namespace NRC

/-- Untyped JSON value as produced by Go's `encoding/json` decoding into
`interface\x7b\x7d`: `nil`, `bool`, `float64` (modelled as a sign bit with an
exact decimal magnitude `num / 10 ^ k`, see `GoNum`), `string`,
`[]interface\x7b\x7d`, and `map[string]interface\x7b\x7d` (modelled as an
association list with distinct keys; key multiplicity never matters for the
extraction code, which only looks keys up). -/
inductive Json where
  | null : Json
  | bool : Bool → Json
  | num : Int → Nat → Json
  | str : String → Json
  | arr : List Json → Json
  | obj : List (String × Json) → Json

/-- Key lookup in a decoded JSON object, i.e. Go's `m["k"]` on a
`map[string]interface\x7b\x7d` (a missing key yields the `nil` interface,
here `none`). -/
def lookupJson (kvs : List (String × Json)) (k : String) : Option Json :=
  match kvs with
  | [] => none
  | (k2, v) :: rest => if k2 = k then some v else lookupJson rest k

/-- The `Config` struct of `main.go`: New Relic API key and alert policy ID. -/
structure Config where
  APIKey : String
  AlertPolicyID : String
  deriving DecidableEq, Repr

/-- The `Term` struct of `main.go`: one threshold term of a condition. -/
structure Term where
  Duration : String
  Operator : String
  Threshold : String
  TimeFunction : String
  Priority : String
  deriving DecidableEq, Repr

/-- The `NRQLCondition` struct of `main.go`. -/
structure NRQLCondition where
  Name : String
  Terms : List Term
  Enabled : Bool
  deriving DecidableEq, Repr

/-! ### Threshold normalization (`formatThreshold`, lines 199–205)

`formatThreshold` calls `strconv.ParseFloat(value, 64)` and then
`fmt.Sprintf("%.f", f)`.  The parser below follows `strconv`'s `atof.go`:
the `special` recognizer for `inf`/`infinity` (optionally signed) and
`nan` (unsigned), case-insensitively and over the whole string (shorter
matches leave unconsumed input, which `ParseFloat` rejects); `readFloat`'s
scan of an optional sign, an optional `0x`/`0X` prefix, mantissa digits
with at most one dot, and an exponent part (`e`/`E` with decimal
exponent — mandatory `p`/`P` for hex) whose digits accumulate with Go's
cap at 10000; underscores skipped during the scan and validated at the
end by `underscoreOK`; full consumption required.  A syntactically valid
finite literal whose magnitude reaches `2 ^ 1024 - 2 ^ 970` (the point at
which round-to-nearest-even overflows float64) is a `value out of range`
error, as in Go; smaller magnitudes (including underflow to zero, which Go
accepts silently) are kept as an exact sign-and-`num/den` value.  The one
idealization is that finite values are kept exact instead of rounded to
binary float64: for magnitudes needing more than 53 bits the digits Go
prints differ from the exact value's, but integer-ness of the output, the
error outcomes, and all concrete inputs appearing in the claims are
unaffected.  `%.f` is correct rounding to zero fractional digits with
ties to even, the sign bit printed in front (Go prints `-0` for a
negative value that rounds to zero), and `+Inf`/`-Inf`/`NaN` for the
special values, as `strconv.FormatFloat` does. -/

/-- Decimal digit test on characters. -/
def isDigitChar (c : Char) : Bool :=
  '0' ≤ c && c ≤ '9'

/-- Numeric value of a decimal digit character. -/
def digitVal (c : Char) : Nat :=
  c.toNat - '0'.toNat

/-- Go's `lower(c) = c | ('x' - 'X')`, as a code point. -/
def lowerN (c : Char) : Nat :=
  c.toNat ||| 32

/-- Go's `'a' <= lower(c) && lower(c) <= 'f'` hex-letter test. -/
def isHexLetter (c : Char) : Bool :=
  'a'.toNat ≤ lowerN c && lowerN c ≤ 'f'.toNat

/-- Numeric value of a hexadecimal digit character. -/
def hexVal (c : Char) : Nat :=
  if isDigitChar c then digitVal c else lowerN c - 'a'.toNat + 10

/-- ASCII case-insensitive equality of character lists, via Go's `lower`. -/
def eqFoldAscii : List Char → List Char → Bool
  | [], [] => true
  | c :: cs, t :: ts => lowerN c = lowerN t && eqFoldAscii cs ts
  | _, _ => false

/-- The value `strconv.ParseFloat(value, 64)` produces on success: `NaN`,
a signed infinity (from an `inf`/`infinity` literal), or a finite value
modelled exactly as a sign bit with magnitude `num / den` (`den > 0`). -/
inductive GoFloat where
  | nan : GoFloat
  | inf (neg : Bool) : GoFloat
  | finite (neg : Bool) (num den : Nat) : GoFloat
  deriving DecidableEq, Repr

/-- The `special` recognizer of `strconv`'s `atof.go`, combined with
`ParseFloat`'s full-consumption requirement: a signed `inf`/`infinity`
or an unsigned `nan`, ASCII case-insensitive (after a sign, `special`
falls through to the infinity case only, so a signed `nan` is rejected). -/
def parseSpecial (cs : List Char) : Option GoFloat :=
  match cs with
  | '+' :: rest =>
      if eqFoldAscii rest ['i', 'n', 'f'] ||
         eqFoldAscii rest ['i', 'n', 'f', 'i', 'n', 'i', 't', 'y'] then
        some (.inf false)
      else none
  | '-' :: rest =>
      if eqFoldAscii rest ['i', 'n', 'f'] ||
         eqFoldAscii rest ['i', 'n', 'f', 'i', 'n', 'i', 't', 'y'] then
        some (.inf true)
      else none
  | _ =>
      if eqFoldAscii cs ['i', 'n', 'f'] ||
         eqFoldAscii cs ['i', 'n', 'f', 'i', 'n', 'i', 't', 'y'] then
        some (.inf false)
      else if eqFoldAscii cs ['n', 'a', 'n'] then some .nan
      else none

/-- The scanning loop of `strconv`'s `underscoreOK`: `saw` is `^` at the
beginning, `0` after a digit (or base prefix), `_` after an underscore and
`!` after anything else; an underscore must follow and be followed by a
digit. -/
def underscoreOKLoop (hex : Bool) : List Char → Char → Bool
  | [], saw => saw ≠ '_'
  | c :: rest, saw =>
      if isDigitChar c || (hex && isHexLetter c) then underscoreOKLoop hex rest '0'
      else if c = '_' then saw = '0' && underscoreOKLoop hex rest '_'
      else if saw = '_' then false
      else underscoreOKLoop hex rest '!'

/-- `strconv`'s `underscoreOK`: underscores in a numeric literal must
appear only between digits or between a base prefix and a digit. -/
def underscoreOK (cs : List Char) : Bool :=
  let cs1 :=
    match cs with
    | '+' :: r => r
    | '-' :: r => r
    | r => r
  match cs1 with
  | '0' :: c :: rest =>
      if lowerN c = 'b'.toNat || lowerN c = 'o'.toNat || lowerN c = 'x'.toNat then
        underscoreOKLoop (lowerN c = 'x'.toNat) rest '0'
      else underscoreOKLoop false cs1 '^'
  | _ => underscoreOKLoop false cs1 '^'

/-- State of `readFloat`'s mantissa scan: exact mantissa value, number of
digits seen after the dot, and the dot / digit / underscore flags. -/
structure MantissaAcc where
  mant : Nat
  fracDigits : Nat
  sawDot : Bool
  sawDigits : Bool
  underscores : Bool
  deriving Repr

/-- The mantissa loop of `readFloat`: digits (hex letters too in base 16)
accumulate exactly, at most one dot, underscores skipped and flagged; the
scan stops at the first other character (or a second dot). -/
def scanMantissa (base16 : Bool) : List Char → MantissaAcc → MantissaAcc × List Char
  | [], acc => (acc, [])
  | c :: rest, acc =>
      if c = '_' then
        scanMantissa base16 rest { acc with underscores := true }
      else if c = '.' then
        if acc.sawDot then (acc, c :: rest)
        else scanMantissa base16 rest { acc with sawDot := true }
      else if isDigitChar c then
        scanMantissa base16 rest
          { acc with
            mant := (if base16 then 16 else 10) * acc.mant + digitVal c,
            fracDigits := acc.fracDigits + (if acc.sawDot then 1 else 0),
            sawDigits := true }
      else if base16 && isHexLetter c then
        scanMantissa base16 rest
          { acc with
            mant := 16 * acc.mant + hexVal c,
            fracDigits := acc.fracDigits + (if acc.sawDot then 1 else 0),
            sawDigits := true }
      else (acc, c :: rest)

/-- The exponent-digit loop of `readFloat`: decimal digits accumulate with
Go's `if e < 10000` cap, underscores skipped and flagged. -/
def scanExpDigits : List Char → Nat → Bool → Nat × Bool × List Char
  | [], e, u => (e, u, [])
  | c :: rest, e, u =>
      if isDigitChar c then
        scanExpDigits rest (if e < 10000 then e * 10 + digitVal c else e) u
      else if c = '_' then scanExpDigits rest e true
      else (e, u, c :: rest)

/-- The exponent part after the exponent character: an optional sign must
be followed by at least one digit, else the whole literal is rejected
(`readFloat` returns failure, not a shorter parse). -/
def scanSignedExp (cs : List Char) : Option (Bool × Nat × Bool × List Char) :=
  let (eneg, cs2) :=
    match cs with
    | '+' :: r => (false, r)
    | '-' :: r => (true, r)
    | r => (false, r)
  match cs2 with
  | c :: _ =>
      if isDigitChar c then
        let (e, u, rest) := scanExpDigits cs2 0 false
        some (eneg, e, u, rest)
      else none
  | [] => none

/-- The exact magnitude `mant / base ^ fracDigits × base ^ esigned` as a
`num / den` pair over a scale base (10 for decimal literals, 2 for hex
binary exponents with `fracDigits` pre-scaled). -/
def scaledMagnitude (b : Nat) (mant : Nat) (fracDigits : Nat) (eneg : Bool)
    (e : Nat) : Nat × Nat :=
  if eneg then (mant, b ^ (e + fracDigits))
  else if fracDigits ≤ e then (mant * b ^ (e - fracDigits), 1)
  else (mant, b ^ (fracDigits - e))

/-- `readFloat` plus `ParseFloat`'s full-consumption check: the sign and
exact magnitude of a syntactically valid finite literal, or `none` for a
syntax error.  Decimal and `0x` hexadecimal (mandatory binary exponent)
forms, with `underscoreOK` validation when underscores were seen. -/
def readFloat (cs : List Char) : Option (Bool × Nat × Nat) :=
  let (neg, cs1) :=
    match cs with
    | '+' :: r => (false, r)
    | '-' :: r => (true, r)
    | r => (false, r)
  let (base16, cs2) :=
    match cs1 with
    | '0' :: c :: r => if lowerN c = 'x'.toNat then (true, r) else (false, cs1)
    | _ => (false, cs1)
  let (acc, rest) := scanMantissa base16 cs2 ⟨0, 0, false, false, false⟩
  if acc.sawDigits = false then none
  else
    let expOutcome : Option (Bool × Nat × Bool) :=
      match rest with
      | [] => if base16 then none else some (false, 0, false)
      | c :: rest2 =>
          if lowerN c = (if base16 then 'p' else 'e').toNat then
            match scanSignedExp rest2 with
            | none => none
            | some (eneg, e, u2, rest3) =>
                if rest3.isEmpty then some (eneg, e, u2) else none
          else none
    match expOutcome with
    | none => none
    | some (eneg, e, u2) =>
        if (acc.underscores || u2) && !underscoreOK cs then none
        else
          let (num, den) :=
            if base16 then scaledMagnitude 2 acc.mant (4 * acc.fracDigits) eneg e
            else scaledMagnitude 10 acc.mant acc.fracDigits eneg e
          some (neg, num, den)

/-- The smallest magnitude at which round-to-nearest-even conversion to
float64 overflows: the midpoint between the largest finite float64 and
`2 ^ 1024` (the tie rounds up to the even `2 ^ 1024`), so `ParseFloat`
returns `ErrRange` exactly at and above it. -/
def float64OverflowBound : Nat :=
  2 ^ 1024 - 2 ^ 970

/-- The error string `strconv.NumError.Error()` produces for
`ParseFloat` (with `strconv.Quote` on these values just adding quotes). -/
def numErrorMsg (value reason : String) : String :=
  "strconv.ParseFloat: parsing \"" ++ value ++ "\": " ++ reason

/-- Model of `strconv.ParseFloat(value, 64)`: specials first, then the
finite scan; a finite magnitude at or beyond the overflow bound is a
`value out of range` error (Go returns ±Inf together with `ErrRange`,
which the caller treats as failure); underflow to zero is not an error. -/
def parseFloat (value : String) : Except String GoFloat :=
  match parseSpecial value.data with
  | some f => .ok f
  | none =>
      match readFloat value.data with
      | none => .error (numErrorMsg value "invalid syntax")
      | some (neg, num, den) =>
          if den * float64OverflowBound ≤ num then
            .error (numErrorMsg value "value out of range")
          else .ok (.finite neg num den)

/-- Round `n / d` (with `d > 0` intended) to the nearest natural number,
ties to even: the rounding `fmt`'s `%.f` verb performs. -/
def roundHalfEven (n d : Nat) : Nat :=
  let q := n / d
  let r := n % d
  if 2 * r < d then q
  else if d < 2 * r then q + 1
  else if q % 2 = 0 then q else q + 1

/-- Decimal digits of `n`, most significant first, prepended to `acc`;
structural recursion on a fuel argument (`n` loses a decimal digit per
step, so fuel `n + 1` in `natToDec` is always enough). -/
def natToDecAux (fuel : Nat) (n : Nat) (acc : List Char) : List Char :=
  match fuel with
  | 0 => acc
  | fuel + 1 =>
      if n < 10 then Nat.digitChar n :: acc
      else natToDecAux fuel (n / 10) (Nat.digitChar (n % 10) :: acc)

/-- Decimal rendering of a natural number, as `fmt` prints integral values. -/
def natToDec (n : Nat) : String :=
  ⟨natToDecAux (n + 1) n []⟩

/-- Model of `fmt.Sprintf("%.f", f)` (via `strconv.FormatFloat`): `NaN`
and `+Inf`/`-Inf` for the special values; for a finite value, round the
magnitude to the nearest integer (ties to even) and print it in decimal,
preceded by `-` when the sign bit is set (hence Go's `-0` outputs). -/
def sprintfDotF (f : GoFloat) : String :=
  match f with
  | .nan => "NaN"
  | .inf false => "+Inf"
  | .inf true => "-Inf"
  | .finite neg num den =>
      (if neg then "-" else "") ++ natToDec (roundHalfEven num den)

/-- `formatThreshold` (lines 199–205): parse the threshold string as a
float; on failure propagate the parse error, otherwise re-render it with
zero fractional digits. -/
def formatThreshold (value : String) : Except String String :=
  match parseFloat value with
  | .error e => .error e
  | .ok f => .ok (sprintfDotF f)

/-- The threshold string parses as a finite float value (neither a parse
failure nor an infinity or NaN literal). -/
def parsesFinite (s : String) : Bool :=
  match parseFloat s with
  | .ok (.finite _ _ _) => true
  | _ => false

/-! ### Condition extraction (`fetchNRQLConditions`, lines 113–196)

The HTTP request and body decoding (lines 91–110) are transport; the
embedding starts from the decoded `map[string]interface\x7b\x7d`.  Every Go
type assertion `x.(T)` becomes a `match` on the `Json` constructor, failing
with the very error string the Go code returns; the loops with early
`return nil, err` become `List.mapM` in the `Except String` monad. -/

/-- Go's `m[field].(string)` pattern used for every string field: succeed
with the string, otherwise fail with `errMsg`. -/
def getString (kvs : List (String × Json)) (field : String) (errMsg : String) :
    Except String String :=
  match lookupJson kvs field with
  | some (.str s) => .ok s
  | _ => .error errMsg

/-- Extraction of one term (lines 142–186): type-check `duration`,
`operator`, `threshold` (then normalize it), `time_function` and
`priority`, in source order, short-circuiting on the first failure. -/
def extractTerm (termData : Json) : Except String Term :=
  match termData with
  | .obj term => do
      let duration ← getString term "duration" "duration field is not a string"
      let operator ← getString term "operator" "operator field is not a string"
      let thresholdValue ← getString term "threshold" "threshold field is not a string"
      let threshold ← formatThreshold thresholdValue
      let timeFunction ← getString term "time_function" "time_function field is not a string"
      let priority ← getString term "priority" "priority field is not a string"
      .ok ⟨duration, operator, threshold, timeFunction, priority⟩
  | _ => .error "term has incorrect type"

/-- The term loop of lines 142–186: extract each term in order, with the
loop's early `return nil, err` on the first failure. -/
def extractTerms (termsData : List Json) : Except String (List Term) :=
  match termsData with
  | [] => .ok []
  | t :: rest => do
      let term ← extractTerm t
      let terms ← extractTerms rest
      .ok (term :: terms)

/-- Extraction of one condition (lines 118–193): type-check `name`,
`enabled` and `terms`, then extract each term in order. -/
def extractCondition (c : Json) : Except String NRQLCondition :=
  match c with
  | .obj condition => do
      let name ← getString condition "name" "name field is not a string"
      let enabled ←
        match lookupJson condition "enabled" with
        | some (.bool b) => Except.ok b
        | _ => Except.error "enabled field is not a boolean"
      let termsData ←
        match lookupJson condition "terms" with
        | some (.arr l) => Except.ok l
        | _ => Except.error "terms field not found or has incorrect type"
      let terms ← extractTerms termsData
      .ok ⟨name, terms, enabled⟩
  | _ => .error "nrql condition has incorrect type"

/-- The condition loop of lines 118–193: extract each condition in order,
with the loop's early `return nil, err` on the first failure. -/
def extractConditions (conditions : List Json) :
    Except String (List NRQLCondition) :=
  match conditions with
  | [] => .ok []
  | c :: rest => do
      let condition ← extractCondition c
      let rest2 ← extractConditions rest
      .ok (condition :: rest2)

/-- The post-decode body of `fetchNRQLConditions` (lines 113–196): look up
`nrql_conditions` in the decoded object, require a list, and extract every
condition in order. -/
def fetchNRQLConditions (data : List (String × Json)) :
    Except String (List NRQLCondition) :=
  match lookupJson data "nrql_conditions" with
  | some (.arr conditions) => extractConditions conditions
  | _ => .error "nrql_conditions field not found or has incorrect type"

/-- The two values `fetchNRQLConditions` actually returns in Go: the slice
and the `error`.  Every error site executes `return nil, err`, so the slice
component is `nil` (here `[]`) whenever the error is non-`nil`. -/
def fetchNRQLConditionsGo (data : List (String × Json)) :
    List NRQLCondition × Option String :=
  match fetchNRQLConditions data with
  | .ok cs => (cs, none)
  | .error e => ([], some e)

/-! ### CSV writer (`SaveNRQLConditionsAsCSV`, lines 208–249)

We model the written file as its list of CSV records (each a list of
fields), in emission order; byte-level CSV quoting is not needed by the
claims (no produced field contains a comma, quote or newline in them). -/

/-- Go's `fmt.Sprintf("%t", b)`. -/
def sprintfT (b : Bool) : String :=
  if b then "true" else "false"

/-- The fixed header record (line 218). -/
def csvHeader : List String :=
  ["Condition Name", "Duration", "Operator", "Threshold", "Time Function",
   "Priority", "Active"]

/-- The record written for one term of one condition (lines 226–234). -/
def termRecord (condition : NRQLCondition) (term : Term) : List String :=
  [condition.Name, term.Duration, term.Operator, term.Threshold,
   term.TimeFunction, term.Priority, sprintfT condition.Enabled]

/-- The data records of the nested loops (lines 224–239): outer loop over
conditions, inner loop over terms, in input order. -/
def conditionRecords (nrqlConditions : List NRQLCondition) : List (List String) :=
  match nrqlConditions with
  | [] => []
  | condition :: rest =>
      condition.Terms.map (termRecord condition) ++ conditionRecords rest

/-- The full record sequence `SaveNRQLConditionsAsCSV` writes: header
first, then the data records. -/
def saveRecords (nrqlConditions : List NRQLCondition) : List (List String) :=
  csvHeader :: conditionRecords nrqlConditions

/-- A filesystem restricted to what the writer touches: file name to
recorded CSV content. -/
def Fs : Type :=
  String → Option (List (List String))

/-- `SaveNRQLConditionsAsCSV` as a filesystem transformer: `os.Create`
creates or truncates `filename`, so the new content is exactly
`saveRecords`, independent of what the file held before. -/
def SaveNRQLConditionsAsCSV (fs : Fs) (filename : String)
    (nrqlConditions : List NRQLCondition) : Fs :=
  fun n => if n = filename then some (saveRecords nrqlConditions) else fs n

/-- The fetch-then-save tail of `main` (lines 43–68): on a fetch error the
run stops with that error and the filesystem is untouched; on success the
conditions are written to `alertPolicyID ++ ".csv"`. -/
def runPipeline (data : List (String × Json)) (alertPolicyID : String)
    (fs : Fs) : Fs × Option String :=
  match fetchNRQLConditions data with
  | .error e => (fs, some e)
  | .ok cs => (SaveNRQLConditionsAsCSV fs (alertPolicyID ++ ".csv") cs, none)

/-! ### Configuration loading (`loadConfig`, lines 72–87)

`os.Open` and `json.Decoder` are I/O; the file is modelled by what they
can observe of it: unreadable, readable but not valid JSON, or readable
with a decoded JSON value.  Decoding into the `Config` struct follows
`encoding/json` semantics: a JSON `null` or a missing field leaves a
field's zero value `""`; a present field of a non-string type is an
unmarshalling error; a top-level value that is neither an object nor
`null` is an unmarshalling error.  (Go also matches field names
case-insensitively and lets duplicate keys overwrite; neither matters for
the claims, and keys here are assumed distinct and exact.) -/

/-- What the configuration file looks like to `loadConfig`. -/
inductive GoFile where
  | unreadable : GoFile
  | invalidJson : GoFile
  | json : Json → GoFile

/-- The error classes of `loadConfig`. -/
inductive LoadError where
  | readError : LoadError
  | parseError : String → LoadError
  deriving DecidableEq, Repr

/-- Decoding of one string-typed struct field by `encoding/json`: missing
or `null` gives the zero value, a string gives the string, anything else
is a type error. -/
def decodeStringField (kvs : List (String × Json)) (field : String) :
    Except String String :=
  match lookupJson kvs field with
  | none => .ok ""
  | some .null => .ok ""
  | some (.str s) => .ok s
  | some _ =>
      .error ("json: cannot unmarshal value into Go struct field Config."
        ++ field ++ " of type string")

/-- Decoding of the whole `Config` struct by `encoding/json`. -/
def decodeConfig (j : Json) : Except String Config :=
  match j with
  | .null => .ok ⟨"", ""⟩
  | .obj kvs => do
      let apiKey ← decodeStringField kvs "apiKey"
      let alertPolicyID ← decodeStringField kvs "alertPolicyID"
      .ok ⟨apiKey, alertPolicyID⟩
  | _ => .error "json: cannot unmarshal value into Go value of type main.Config"

/-- `loadConfig` (lines 72–87): fail with the open error if the file
cannot be opened, with the decoder's error if its content does not decode,
and otherwise return the decoded `Config`. -/
def loadConfig (file : GoFile) : Except LoadError Config :=
  match file with
  | .unreadable => .error .readError
  | .invalidJson => .error (.parseError "invalid character in JSON input")
  | .json j =>
      match decodeConfig j with
      | .ok c => .ok c
      | .error e => .error (.parseError e)

/-! ### Shape validity predicates

Boolean predicates stating that a decoded JSON value passes every dynamic
check of the extraction code; used to characterize exactly when
`fetchNRQLConditions` succeeds. -/

/-- The looked-up value exists and is a JSON string. -/
def isStrOpt (v : Option Json) : Bool :=
  match v with
  | some (.str _) => true
  | _ => false

/-- Every check `extractTerm` performs: an object whose `duration`,
`operator`, `threshold`, `time_function` and `priority` are strings, with
`threshold` parseable as a float. -/
def validTermJson (j : Json) : Bool :=
  match j with
  | .obj term =>
      isStrOpt (lookupJson term "duration") &&
      isStrOpt (lookupJson term "operator") &&
      (match lookupJson term "threshold" with
       | some (.str s) => (parseFloat s).isOk
       | _ => false) &&
      isStrOpt (lookupJson term "time_function") &&
      isStrOpt (lookupJson term "priority")
  | _ => false

/-- Every check `extractCondition` performs: an object with a string
`name`, boolean `enabled`, and a `terms` list of valid terms. -/
def validConditionJson (j : Json) : Bool :=
  match j with
  | .obj condition =>
      isStrOpt (lookupJson condition "name") &&
      (match lookupJson condition "enabled" with
       | some (.bool _) => true
       | _ => false) &&
      (match lookupJson condition "terms" with
       | some (.arr l) => l.all validTermJson
       | _ => false)
  | _ => false

/-- Every check `fetchNRQLConditions` performs on the decoded body:
`nrql_conditions` is present, is a list, and all its elements are valid
conditions. -/
def validResponse (data : List (String × Json)) : Bool :=
  match lookupJson data "nrql_conditions" with
  | some (.arr conditions) => conditions.all validConditionJson
  | _ => false

/-- There is a `nrql_conditions` key holding a list (the sole check of
lines 114–117). -/
def hasNrqlList (data : List (String × Json)) : Bool :=
  match lookupJson data "nrql_conditions" with
  | some (.arr _) => true
  | _ => false

/-- The looked-up value exists and is a JSON boolean. -/
def isBoolOpt (v : Option Json) : Bool :=
  match v with
  | some (.bool _) => true
  | _ => false

/-- The looked-up value exists and is a JSON array. -/
def isArrOpt (v : Option Json) : Bool :=
  match v with
  | some (.arr _) => true
  | _ => false

/-- The shape the spec's configuration contract describes, stated from the
spec's words for comparison with the code's `decodeConfig`: a JSON object
in which both `apiKey` and `alertPolicyID` are present with string
values. -/
def matchesSpecConfigShape (j : Json) : Bool :=
  match j with
  | .obj kvs =>
      isStrOpt (lookupJson kvs "apiKey") &&
      isStrOpt (lookupJson kvs "alertPolicyID")
  | _ => false

/-- One string field is decodable by `encoding/json` without error:
absent, `null`, or a string. -/
def lenientField (v : Option Json) : Bool :=
  match v with
  | none => true
  | some .null => true
  | some (.str _) => true
  | _ => false

/-- The inputs `decodeConfig` actually accepts: `null`, or an object whose
`apiKey` and `alertPolicyID` are each absent, `null` or a string. -/
def lenientConfigShape (j : Json) : Bool :=
  match j with
  | .null => true
  | .obj kvs =>
      lenientField (lookupJson kvs "apiKey") &&
      lenientField (lookupJson kvs "alertPolicyID")
  | _ => false

/-- A string of the form `optional minus sign, then one or more decimal
digits`: an integer decimal representation with no fractional part. -/
def isIntegerDecimalString (s : String) : Bool :=
  let cs := if s.data.head? = some '-' then s.data.tail else s.data
  !cs.isEmpty && cs.all isDigitChar

/-! ### Helper lemmas -/

theorem formatThreshold_isOk (s : String) :
    (formatThreshold s).isOk = (parseFloat s).isOk := by
  unfold formatThreshold
  split <;> simp_all [Except.isOk, Except.toBool]

theorem extractTerm_isOk (j : Json) : (extractTerm j).isOk = validTermJson j := by
  cases j <;> try rfl
  next term =>
  simp only [extractTerm, validTermJson, getString, bind, Except.bind]
  repeat' split <;>
    simp_all [isStrOpt, Except.isOk, Except.toBool, formatThreshold]

theorem extractTerms_isOk (l : List Json) :
    (extractTerms l).isOk = l.all validTermJson := by
  induction l with
  | nil => rfl
  | cons t rest ih =>
      rw [List.all_cons, ← extractTerm_isOk t, ← ih]
      cases ht : extractTerm t with
      | error e => simp [extractTerms, ht, bind, Except.bind, Except.isOk, Except.toBool]
      | ok v =>
          cases hr : extractTerms rest with
          | error e =>
              simp [extractTerms, ht, hr, bind, Except.bind, Except.isOk, Except.toBool]
          | ok vs =>
              simp [extractTerms, ht, hr, bind, Except.bind, Except.isOk, Except.toBool]

theorem extractCondition_isOk (j : Json) :
    (extractCondition j).isOk = validConditionJson j := by
  cases j <;> try rfl
  next condition =>
  simp only [extractCondition, validConditionJson, getString, bind, Except.bind]
  repeat' split <;>
    simp_all [isStrOpt, Except.isOk, Except.toBool, ← extractTerms_isOk]

theorem extractConditions_isOk (l : List Json) :
    (extractConditions l).isOk = l.all validConditionJson := by
  induction l with
  | nil => rfl
  | cons c rest ih =>
      rw [List.all_cons, ← extractCondition_isOk c, ← ih]
      cases hc : extractCondition c with
      | error e => simp [extractConditions, hc, bind, Except.bind, Except.isOk, Except.toBool]
      | ok v =>
          cases hr : extractConditions rest with
          | error e =>
              simp [extractConditions, hc, hr, bind, Except.bind, Except.isOk, Except.toBool]
          | ok vs =>
              simp [extractConditions, hc, hr, bind, Except.bind, Except.isOk, Except.toBool]

theorem fetchNRQLConditions_isOk (data : List (String × Json)) :
    (fetchNRQLConditions data).isOk = validResponse data := by
  unfold fetchNRQLConditions validResponse
  split
  · exact extractConditions_isOk _
  · rfl

theorem isStrOpt_eq_true (v : Option Json) :
    isStrOpt v = true ↔ ∃ s, v = some (.str s) := by
  unfold isStrOpt
  split <;> simp_all

theorem conditionRecords_length (l : List NRQLCondition) :
    (conditionRecords l).length = (l.map fun c => c.Terms.length).sum := by
  induction l with
  | nil => rfl
  | cons c rest ih =>
      simp [conditionRecords, ih]

theorem getString_ok_of (kvs : List (String × Json)) (f m s : String)
    (h : lookupJson kvs f = some (.str s)) : getString kvs f m = .ok s := by
  simp [getString, h]

theorem getString_error_of (kvs : List (String × Json)) (f m : String)
    (h : isStrOpt (lookupJson kvs f) = false) : getString kvs f m = .error m := by
  unfold getString
  split
  · next s hs => rw [hs] at h; simp [isStrOpt] at h
  · rfl

theorem digitChar_isDigit {m : Nat} (h : m < 10) :
    isDigitChar (Nat.digitChar m) = true := by
  interval_cases m <;> rfl

theorem natToDecAux_digits (fuel : Nat) :
    ∀ n acc, acc.all isDigitChar = true →
      (natToDecAux fuel n acc).all isDigitChar = true := by
  induction fuel with
  | zero => intro n acc h; exact h
  | succ fuel ih =>
      intro n acc h
      unfold natToDecAux
      split
      · next hlt => simp [digitChar_isDigit hlt, h]
      · next hge =>
          exact ih (n / 10) _
            (by simp [digitChar_isDigit (Nat.mod_lt n (by omega)), h])

theorem natToDecAux_ne_nil (fuel : Nat) :
    ∀ n acc, acc ≠ [] → natToDecAux fuel n acc ≠ [] := by
  induction fuel with
  | zero => intro n acc h; exact h
  | succ fuel ih =>
      intro n acc h
      unfold natToDecAux
      split
      · simp
      · exact ih (n / 10) _ (by simp)

theorem natToDec_digits (n : Nat) : (natToDec n).data.all isDigitChar = true :=
  natToDecAux_digits (n + 1) n [] rfl

theorem natToDec_ne_nil (n : Nat) : (natToDec n).data ≠ [] := by
  show natToDecAux (n + 1) n [] ≠ []
  unfold natToDecAux
  split
  · simp
  · exact natToDecAux_ne_nil n (n / 10) _ (by simp)

theorem isInt_natToDec (n : Nat) :
    isIntegerDecimalString (natToDec n) = true := by
  have hall := natToDec_digits n
  have hne := natToDec_ne_nil n
  unfold isIntegerDecimalString
  rcases hd : (natToDec n).data with _ | ⟨c, cs⟩
  · exact absurd hd hne
  · rw [hd] at hall
    simp only [List.all_cons, Bool.and_eq_true] at hall
    have hc : c ≠ '-' := by
      intro hcc
      rw [hcc] at hall
      exact absurd hall.1 (by decide)
    simp [hd, hc, hall.1, hall.2]

theorem isInt_sprintfFinite (neg : Bool) (num den : Nat) :
    isIntegerDecimalString (sprintfDotF (.finite neg num den)) = true := by
  cases neg
  · show isIntegerDecimalString ("" ++ natToDec (roundHalfEven num den)) = true
    have he : ("" ++ natToDec (roundHalfEven num den))
        = natToDec (roundHalfEven num den) := rfl
    rw [he]
    exact isInt_natToDec _
  · show isIntegerDecimalString ("-" ++ natToDec (roundHalfEven num den)) = true
    have hdata : ("-" ++ natToDec (roundHalfEven num den)).data
        = '-' :: (natToDec (roundHalfEven num den)).data := rfl
    have hall := natToDec_digits (roundHalfEven num den)
    have hne := natToDec_ne_nil (roundHalfEven num den)
    unfold isIntegerDecimalString
    rw [hdata]
    simp [hall, hne, List.isEmpty_iff]

theorem decodeStringField_isOk (kvs : List (String × Json)) (f : String) :
    (decodeStringField kvs f).isOk = lenientField (lookupJson kvs f) := by
  unfold decodeStringField lenientField
  repeat' split <;> simp_all [Except.isOk, Except.toBool]

theorem decodeConfig_isOk (j : Json) :
    (decodeConfig j).isOk = lenientConfigShape j := by
  cases j <;> try rfl
  next kvs =>
  show (decodeConfig (.obj kvs)).isOk = lenientConfigShape (.obj kvs)
  have hA' := decodeStringField_isOk kvs "apiKey"
  have hB' := decodeStringField_isOk kvs "alertPolicyID"
  simp only [lenientConfigShape, ← hA', ← hB']
  cases hA : decodeStringField kvs "apiKey" with
  | error e => simp [decodeConfig, bind, Except.bind, hA, Except.isOk, Except.toBool]
  | ok sA =>
      cases hB : decodeStringField kvs "alertPolicyID" with
      | error e =>
          simp [decodeConfig, bind, Except.bind, hA, hB, Except.isOk, Except.toBool]
      | ok sB =>
          simp [decodeConfig, bind, Except.bind, hA, hB, Except.isOk, Except.toBool]

theorem conditionRecords_middle (pre post : List NRQLCondition)
    (c : NRQLCondition) (h : c.Terms = []) :
    conditionRecords (pre ++ c :: post) = conditionRecords (pre ++ post) := by
  induction pre with
  | nil => simp [conditionRecords, h]
  | cons d rest ih => simp [conditionRecords, ih]

/-! ### Claim theorems -/

/-- C1: for every fetched list of conditions, the CSV content has exactly
`1 + Σ Tᵢ` rows — a header row plus one data row per term across all
conditions — and a list with zero conditions yields a header-only file. -/
theorem csv_row_count (nrqlConditions : List NRQLCondition) :
    (saveRecords nrqlConditions).length
      = 1 + (nrqlConditions.map fun c => c.Terms.length).sum ∧
    saveRecords [] = [csvHeader] := by
  constructor
  · simp [saveRecords, conditionRecords_length, Nat.add_comm]
  · rfl

/-- C2: threshold normalization maps `"7.4"` to `"7"` and `"7.5"` to `"8"`
(nearest-integer rounding), and the non-numeric input `"abc"` yields the
`ParseFloat` error rather than a value. -/
theorem formatThreshold_examples :
    formatThreshold "7.4" = .ok "7" ∧
    formatThreshold "7.5" = .ok "8" ∧
    formatThreshold "abc"
      = .error "strconv.ParseFloat: parsing \"abc\": invalid syntax" :=
  ⟨rfl, rfl, rfl⟩

/-- C3: when the decoded response lacks a `nrql_conditions` key holding a
list, the fetch step returns the shape error, the run terminates with that
error, and the filesystem — in particular the CSV output path — is left
untouched. -/
theorem missing_key_stops_run (data : List (String × Json))
    (alertPolicyID : String) (fs : Fs)
    (h : hasNrqlList data = false) :
    fetchNRQLConditions data
      = .error "nrql_conditions field not found or has incorrect type" ∧
    runPipeline data alertPolicyID fs
      = (fs, some "nrql_conditions field not found or has incorrect type") := by
  have hfetch : fetchNRQLConditions data
      = .error "nrql_conditions field not found or has incorrect type" := by
    unfold hasNrqlList at h
    unfold fetchNRQLConditions
    split
    · next heq => rw [heq] at h; simp at h
    · rfl
  exact ⟨hfetch, by unfold runPipeline; rw [hfetch]⟩

/-- C3 witness: a response object without `nrql_conditions` at a concrete
input. -/
theorem missing_key_stops_run_witness :
    hasNrqlList [("foo", Json.null)] = false ∧
    (fetchNRQLConditions [("foo", Json.null)]
        = .error "nrql_conditions field not found or has incorrect type" ∧
      runPipeline [("foo", Json.null)] "12345" (fun _ => none)
        = ((fun _ => none : Fs),
            some "nrql_conditions field not found or has incorrect type")) :=
  ⟨rfl, missing_key_stops_run [("foo", Json.null)] "12345" (fun _ => none) rfl⟩

/-- C4 counterexample: the empty JSON object does not match the spec's
`\x7b apiKey: string, alertPolicyID: string \x7d` shape, yet `loadConfig`
succeeds on it and returns a `Config` built from default (zero) values, so
loading does not fail on every input that fails to match the shape. -/
theorem loadConfig_accepts_nonmatching :
    loadConfig (.json (.obj [])) = .ok ⟨"", ""⟩ ∧
    matchesSpecConfigShape (.obj []) = false :=
  ⟨rfl, rfl⟩

/-- C4 amended: loading fails with a read error exactly when the file
cannot be opened, and otherwise with a parse error exactly when the
content is not valid JSON or does not decode into the `Config` struct
under Go's lenient rules — top-level `null` or an object whose `apiKey`
and `alertPolicyID` fields are each absent, `null` or a string; absent or
`null` fields default to `""`, so inputs that do not fully match the
spec's shape can still load. -/
theorem loadConfig_amended (file : GoFile) (j : Json) :
    (loadConfig file = .error .readError ↔ file = .unreadable) ∧
    (loadConfig (.json j)).isOk = lenientConfigShape j := by
  constructor
  · cases file with
    | unreadable => simp [loadConfig]
    | invalidJson => simp [loadConfig]
    | json j0 => cases hd : decodeConfig j0 <;> simp [loadConfig, hd]
  · have h2 : (loadConfig (.json j)).isOk = (decodeConfig j).isOk := by
      unfold loadConfig
      cases hd : decodeConfig j <;> simp [hd, Except.isOk, Except.toBool]
    rw [h2, decodeConfig_isOk]

/-- C5: validation proceeds field by field in source order, short-circuits
on the first missing or mis-typed attribute, and the resulting error names
that field — for every validated field of a term (`duration`, `operator`,
`threshold`, `time_function`, `priority`) and of a condition (`name`,
`enabled`, `terms`); a present string `threshold` that `ParseFloat`
rejects (invalid syntax or out of float64 range) short-circuits with that
`ParseFloat` error, which names the value rather than the field. -/
theorem field_validation (term condition : List (String × Json)) :
    (isStrOpt (lookupJson term "duration") = false →
      extractTerm (.obj term) = .error "duration field is not a string") ∧
    (isStrOpt (lookupJson term "duration") = true →
      isStrOpt (lookupJson term "operator") = false →
      extractTerm (.obj term) = .error "operator field is not a string") ∧
    (isStrOpt (lookupJson term "duration") = true →
      isStrOpt (lookupJson term "operator") = true →
      isStrOpt (lookupJson term "threshold") = false →
      extractTerm (.obj term) = .error "threshold field is not a string") ∧
    (∀ s e, isStrOpt (lookupJson term "duration") = true →
      isStrOpt (lookupJson term "operator") = true →
      lookupJson term "threshold" = some (.str s) →
      parseFloat s = .error e →
      extractTerm (.obj term) = .error e) ∧
    (∀ s f, isStrOpt (lookupJson term "duration") = true →
      isStrOpt (lookupJson term "operator") = true →
      lookupJson term "threshold" = some (.str s) →
      parseFloat s = .ok f →
      isStrOpt (lookupJson term "time_function") = false →
      extractTerm (.obj term) = .error "time_function field is not a string") ∧
    (∀ s f, isStrOpt (lookupJson term "duration") = true →
      isStrOpt (lookupJson term "operator") = true →
      lookupJson term "threshold" = some (.str s) →
      parseFloat s = .ok f →
      isStrOpt (lookupJson term "time_function") = true →
      isStrOpt (lookupJson term "priority") = false →
      extractTerm (.obj term) = .error "priority field is not a string") ∧
    (isStrOpt (lookupJson condition "name") = false →
      extractCondition (.obj condition) = .error "name field is not a string") ∧
    (isStrOpt (lookupJson condition "name") = true →
      isBoolOpt (lookupJson condition "enabled") = false →
      extractCondition (.obj condition) = .error "enabled field is not a boolean") ∧
    (∀ b, isStrOpt (lookupJson condition "name") = true →
      lookupJson condition "enabled" = some (.bool b) →
      isArrOpt (lookupJson condition "terms") = false →
      extractCondition (.obj condition)
        = .error "terms field not found or has incorrect type") := by
  refine ⟨?_, ?_, ?_, ?_, ?_, ?_, ?_, ?_, ?_⟩
  · intro h
    simp only [extractTerm, bind, Except.bind,
      getString_error_of term "duration" "duration field is not a string" h]
  · intro h1 h2
    rcases (isStrOpt_eq_true _).1 h1 with ⟨s1, hs1⟩
    simp only [extractTerm, bind, Except.bind,
      getString_ok_of term "duration" _ s1 hs1,
      getString_error_of term "operator" "operator field is not a string" h2]
  · intro h1 h2 h3
    rcases (isStrOpt_eq_true _).1 h1 with ⟨s1, hs1⟩
    rcases (isStrOpt_eq_true _).1 h2 with ⟨s2, hs2⟩
    simp only [extractTerm, bind, Except.bind,
      getString_ok_of term "duration" _ s1 hs1,
      getString_ok_of term "operator" _ s2 hs2,
      getString_error_of term "threshold" "threshold field is not a string" h3]
  · intro s e h1 h2 h3 h4
    rcases (isStrOpt_eq_true _).1 h1 with ⟨s1, hs1⟩
    rcases (isStrOpt_eq_true _).1 h2 with ⟨s2, hs2⟩
    simp only [extractTerm, bind, Except.bind,
      getString_ok_of term "duration" _ s1 hs1,
      getString_ok_of term "operator" _ s2 hs2,
      getString_ok_of term "threshold" _ s h3,
      formatThreshold, h4]
  · intro s f h1 h2 h3 h4 h5
    rcases (isStrOpt_eq_true _).1 h1 with ⟨s1, hs1⟩
    rcases (isStrOpt_eq_true _).1 h2 with ⟨s2, hs2⟩
    simp only [extractTerm, bind, Except.bind,
      getString_ok_of term "duration" _ s1 hs1,
      getString_ok_of term "operator" _ s2 hs2,
      getString_ok_of term "threshold" _ s h3,
      formatThreshold, h4,
      getString_error_of term "time_function" "time_function field is not a string" h5]
  · intro s f h1 h2 h3 h4 h5 h6
    rcases (isStrOpt_eq_true _).1 h1 with ⟨s1, hs1⟩
    rcases (isStrOpt_eq_true _).1 h2 with ⟨s2, hs2⟩
    rcases (isStrOpt_eq_true _).1 h5 with ⟨s4, hs4⟩
    simp only [extractTerm, bind, Except.bind,
      getString_ok_of term "duration" _ s1 hs1,
      getString_ok_of term "operator" _ s2 hs2,
      getString_ok_of term "threshold" _ s h3,
      formatThreshold, h4,
      getString_ok_of term "time_function" _ s4 hs4,
      getString_error_of term "priority" "priority field is not a string" h6]
  · intro h
    simp only [extractCondition, bind, Except.bind,
      getString_error_of condition "name" "name field is not a string" h]
  · intro h1 h2
    rcases (isStrOpt_eq_true _).1 h1 with ⟨s1, hs1⟩
    have e1 := getString_ok_of condition "name" "name field is not a string" s1 hs1
    rcases hE : lookupJson condition "enabled" with _ | v
    · simp [extractCondition, bind, Except.bind, e1, hE]
    · cases v <;> simp_all [extractCondition, bind, Except.bind, e1, isBoolOpt]
  · intro b h1 h2 h3
    rcases (isStrOpt_eq_true _).1 h1 with ⟨s1, hs1⟩
    have e1 := getString_ok_of condition "name" "name field is not a string" s1 hs1
    rcases hT : lookupJson condition "terms" with _ | v
    · simp [extractCondition, bind, Except.bind, e1, h2, hT]
    · cases v <;> simp_all [extractCondition, bind, Except.bind, e1, h2, isArrOpt]

/-- C5 witness: a term object with no `duration`, and one whose
`duration` is a string but whose `operator` is a boolean, at concrete
inputs. -/
theorem field_validation_witness :
    (isStrOpt (lookupJson ([] : List (String × Json)) "duration") = false ∧
      extractTerm (.obj []) = .error "duration field is not a string") ∧
    (isStrOpt (lookupJson [("duration", Json.str "5"),
        ("operator", Json.bool true)] "duration") = true ∧
      extractTerm (.obj [("duration", Json.str "5"), ("operator", Json.bool true)])
        = .error "operator field is not a string") :=
  ⟨⟨rfl, (field_validation [] []).1 rfl⟩,
   ⟨rfl, (field_validation [("duration", Json.str "5"),
      ("operator", Json.bool true)] []).2.1 rfl rfl⟩⟩

/-- C6: the writer emits the fixed 7-column header, then one record per
term in the same nested order as the input (conditions in response order,
terms in order within each condition), each record repeating the parent
condition's name and rendering its enabled flag as literal `true`/`false`
in the `Active` column. -/
theorem csv_layout (nrqlConditions : List NRQLCondition) :
    saveRecords nrqlConditions
      = ["Condition Name", "Duration", "Operator", "Threshold",
         "Time Function", "Priority", "Active"]
        :: nrqlConditions.flatMap (fun c => c.Terms.map (termRecord c)) ∧
    String.intercalate "," csvHeader
      = "Condition Name,Duration,Operator,Threshold,Time Function,Priority,Active" ∧
    ∀ c t, termRecord c t
      = [c.Name, t.Duration, t.Operator, t.Threshold, t.TimeFunction,
         t.Priority, if c.Enabled then "true" else "false"] := by
  refine ⟨?_, rfl, fun c t => rfl⟩
  show csvHeader :: conditionRecords nrqlConditions = _
  rw [csvHeader]
  congr 1
  induction nrqlConditions with
  | nil => rfl
  | cons c rest ih => simp [conditionRecords, ih]

/-- C7 counterexample: the threshold string `"inf"` parses as a float
(`strconv.ParseFloat` recognizes `inf` case-insensitively), yet the
normalized threshold the extracted `Term` stores is `"+Inf"`, which is not
a decimal integer representation — refuting the claim at this concrete
input. -/
theorem threshold_inf_counterexample :
    formatThreshold "inf" = .ok "+Inf" ∧
    extractTerm (.obj [("duration", Json.str "5"), ("operator", Json.str "above"),
        ("threshold", Json.str "inf"), ("time_function", Json.str "all"),
        ("priority", Json.str "critical")])
      = .ok ⟨"5", "above", "+Inf", "all", "critical"⟩ ∧
    isIntegerDecimalString "+Inf" = false :=
  ⟨rfl, rfl, rfl⟩

/-- C7 amended: whenever the threshold string parses to a finite float
value, the normalized threshold stored in the extracted `Term` is a
decimal integer representation — an optional minus sign followed by
digits, with no fractional part.  (Threshold strings parsing to an
infinity or NaN are stored as the non-integer literals `+Inf`, `-Inf` or
`NaN`, per the counterexample.) -/
theorem threshold_integer_form (value out : String)
    (hfin : parsesFinite value = true)
    (h : formatThreshold value = .ok out) :
    isIntegerDecimalString out = true := by
  unfold parsesFinite at hfin
  split at hfin
  · next neg num den hp =>
      unfold formatThreshold at h
      rw [hp] at h
      simp only [Except.ok.injEq] at h
      rw [← h]
      exact isInt_sprintfFinite neg num den
  · exact absurd hfin (by simp)

/-- C7 witness: the normalization of `"7.4"` at a concrete input. -/
theorem threshold_integer_form_witness :
    parsesFinite "7.4" = true ∧
    formatThreshold "7.4" = .ok "7" ∧ isIntegerDecimalString "7" = true :=
  ⟨rfl, rfl, threshold_integer_form "7.4" "7" rfl rfl⟩

/-- C8: a condition whose `terms` list is present and empty extracts
successfully to a condition with zero terms, and a condition with zero
terms contributes zero data records to the CSV output. -/
theorem empty_terms_no_error_no_rows (condition : List (String × Json))
    (nm : String) (b : Bool) (pre post : List NRQLCondition) (c : NRQLCondition)
    (h1 : lookupJson condition "name" = some (.str nm))
    (h2 : lookupJson condition "enabled" = some (.bool b))
    (h3 : lookupJson condition "terms" = some (.arr []))
    (h4 : c.Terms = []) :
    extractCondition (.obj condition) = .ok ⟨nm, [], b⟩ ∧
    saveRecords (pre ++ c :: post) = saveRecords (pre ++ post) := by
  constructor
  · simp only [extractCondition, bind, Except.bind,
      getString_ok_of condition "name" "name field is not a string" nm h1,
      h2, h3, extractTerms]
  · unfold saveRecords
    rw [conditionRecords_middle pre post c h4]

/-- C8 witness: a concrete condition with an empty `terms` list. -/
theorem empty_terms_witness :
    (lookupJson [("name", Json.str "c1"), ("enabled", Json.bool true),
        ("terms", Json.arr [])] "name" = some (.str "c1") ∧
      extractCondition (.obj [("name", Json.str "c1"), ("enabled", Json.bool true),
        ("terms", Json.arr [])]) = .ok ⟨"c1", [], true⟩) ∧
    saveRecords [⟨"c1", [], true⟩] = saveRecords [] := by
  have h := empty_terms_no_error_no_rows
    [("name", Json.str "c1"), ("enabled", Json.bool true), ("terms", Json.arr [])]
    "c1" true [] [] ⟨"c1", [], true⟩ rfl rfl rfl rfl
  exact ⟨⟨rfl, h.1⟩, h.2⟩

/-- C9: a successful write replaces the output file's content entirely
with the header plus the new rows — the resulting content is exactly
`saveRecords` and is independent of whatever the file held before, so no
stale trailing rows of a previous longer run survive. -/
theorem rerun_overwrites (fs1 fs2 : Fs) (filename : String)
    (cs : List NRQLCondition) :
    SaveNRQLConditionsAsCSV fs1 filename cs filename = some (saveRecords cs) ∧
    SaveNRQLConditionsAsCSV fs1 filename cs filename
      = SaveNRQLConditionsAsCSV fs2 filename cs filename := by
  constructor <;> simp [SaveNRQLConditionsAsCSV]

/-- C10: extraction is total and all-or-nothing — for every decoded
response it returns success exactly when every dynamic type check on the
tree passes (so any malformed shape yields an error value, never a crash),
and whenever the Go function returns a non-`nil` error its returned
condition slice is empty. -/
theorem fetch_total_all_or_nothing (data : List (String × Json)) :
    (fetchNRQLConditions data).isOk = validResponse data ∧
    ((fetchNRQLConditionsGo data).2.isSome = true →
      (fetchNRQLConditionsGo data).1 = []) := by
  refine ⟨fetchNRQLConditions_isOk data, ?_⟩
  unfold fetchNRQLConditionsGo
  cases h : fetchNRQLConditions data <;> simp

/-- C10 witness: the empty response object at a concrete input. -/
theorem fetch_total_witness :
    (fetchNRQLConditionsGo []).2.isSome = true ∧
    (fetchNRQLConditionsGo []).1 = [] :=
  ⟨rfl, (fetch_total_all_or_nothing []).2 rfl⟩

end NRC
